import Mathlib

set_option autoImplicit false

/-!
Verification development for the PyPomes-S3 repository.

The Python sources (`s3_common.py`, `s3_pomes.py`, `aws_pomes.py`) are shallowly
embedded below.  Python values that may be `None`, a string, or a boolean are
modelled by `PyVal`; Python dictionaries with string keys by association lists;
byte strings by `List Nat`.  The caller-supplied mutable `errors` list is
modelled by returning, from every embedded operation, the list of error
messages that the operation appends to the caller's list.

The vendor SDK (boto3 / S3 itself) is an external collaborator of the
repository.  Its calls (`get_object`, `put_object`, `remove_object`,
`list_objects_v2`, `head_object`, `get_object_attributes`) are modelled in two
ways, both used below:
* outcome-parametrically: an adapter function receives the outcome of the
  vendor call (`Except Exc _`) as an explicit argument, so that theorems
  quantify over every possible vendor behaviour; and
* concretely, by a store `S3State` mapping (bucket, key) pairs to objects,
  with the documented S3 contract: a missing key is reported by an exception
  whose `code` is `"NoSuchKey"`, and `list_objects_v2` returns at most
  `MaxKeys` keys under the requested key prefix.
-/

/-- A Python value that is either `None`, a string, or a boolean
(the value types stored in the `_S3_ACCESS_DATA` dictionaries). -/
inductive PyVal where
  | null
  | str (s : String)
  | bool (b : Bool)
  deriving DecidableEq, Repr

/-- How a `PyVal` renders inside a Python f-string (`None` prints as `"None"`). -/
def pyStr : PyVal → String
  | .null => "None"
  | .str s => s
  | .bool true => "True"
  | .bool false => "False"

/-- How an optional string renders inside a Python f-string. -/
def pyStrOpt : Option String → String
  | none => "None"
  | some s => s

/-- Python truthiness of a `str | None` argument: `None` and `""` are falsy. -/
def pyTruthyStr : Option String → Bool
  | none => false
  | some s => s != ""

/-- A Python `dict` with string keys, in insertion order. -/
abbrev PyDict := List (String × PyVal)

/-- `d.get(k)`: the value at key `k`, or `None` if the key is absent. -/
def dictGet (d : PyDict) (k : String) : PyVal := (d.lookup k).getD .null

/-- The process-wide `_S3_ACCESS_DATA` map: engine name to its parameter dict. -/
abbrev AccessMap := List (String × PyDict)

/-- Python `dict` assignment `m[k] = v`: overwrite in place if the key exists,
otherwise append (insertion order is preserved). -/
def mapInsert (m : AccessMap) (k : String) (v : PyDict) : AccessMap :=
  if (m.lookup k).isSome then m.map (fun p => if p.1 = k then (k, v) else p)
  else m ++ [(k, v)]

/-- A vendor exception: boto3 client errors carry a string `code` (absent for
other exception classes such as `TypeError`), plus the exception text. -/
structure Exc where
  code : Option String
  text : String
  deriving DecidableEq, Repr

/-- Modelled from the spec: `str_sanitize` is imported from the external
`pypomes_core` package, which is not part of this repository.  The spec refers
to it only as producing the "sanitized exception text", so it is modelled as
the identity transformation on the exception text. -/
def str_sanitize (s : String) : String := s

/-- Modelled from the spec: `_normalize_tags` is imported from `s3_common` by
`aws_pomes.py` but is absent from the provided sources; the spec describes the
tags only as metadata attached to the stored object, so normalization is
modelled as the identity on the tag dictionary. -/
def _normalize_tags (tags : List (String × String)) : List (String × String) := tags

/-- `s3_common._assert_engine` (s3_common.py lines 59-82): resolve an optional
engine name against the configured engine list.  A falsy `engine` (Python
`None` or `""`) with a non-empty configured list yields the first configured
engine; a configured name yields itself; anything else appends one error
message and yields `None`.  Returns (result, messages appended to `errors`). -/
def _assert_engine (engines : List String) (engine : Option String) :
    Option String × List String :=
  if !pyTruthyStr engine && !engines.isEmpty then
    (engines.head?, [])
  else if (engine.map engines.contains).getD false then
    (engine, [])
  else
    (none, ["S3 engine '" ++ pyStrOpt engine ++ "' unknown or not configured"])

/-- `s3_common._s3_except_msg` / `_except_msg` (s3_common.py lines 125-144):
the error message formatted for a vendor exception.  The endpoint shown is
`_S3_ACCESS_DATA[engine].get("region-name")` for the aws engine and
`_S3_ACCESS_DATA[engine].get("endpoint-url")` otherwise; a missing key prints
as `None`.  The message is appended to the caller's `errors` list exactly once
(when that list is present). -/
def _except_msg (accessData : AccessMap) (engine : String) (e : Exc) : String :=
  let d : PyDict := (accessData.lookup engine).getD []
  let endpoint : PyVal :=
    if engine = "aws" then dictGet d "region-name" else dictGet d "endpoint-url"
  "Error accessing '" ++ engine ++ "' at '" ++ pyStr endpoint ++ "': " ++
    str_sanitize e.text

/-- s3_common.py lines 45-52, engine `"aws"`: the parameter dict built from
environment variables.  Note that the value of `{APP_PREFIX}_AWS_REGION_NAME`
is stored under the key `"client"`, not `"region-name"` (line 52 of the
source). -/
def env_aws_data (accessKey secretKey bucketName tempFolder regionName : String) : PyDict :=
  [("access-key", .str accessKey),
   ("secret-key", .str secretKey),
   ("bucket-name", .str bucketName),
   ("temp-folder", .str tempFolder),
   ("client", .str regionName)]

/-- s3_pomes.py lines 41-48: the parameter dict stored by `s3_setup`. -/
def setup_access_data (endpoint_url bucket_name access_key secret_key : String)
    (secure_access : Option Bool) (region_name : Option String) : PyDict :=
  [("endpoint-url", .str endpoint_url),
   ("bucket-name", .str bucket_name),
   ("access-key", .str access_key),
   ("secret-key", .str secret_key),
   ("secure-access", match secure_access with | none => .null | some b => .bool b),
   ("region-name", match region_name with | none => .null | some s => .str s)]

/-- The process-wide configuration state: `_S3_ACCESS_DATA` and `_S3_ENGINES`. -/
structure S3Config where
  accessData : AccessMap
  engines : List String
  deriving DecidableEq, Repr

/-- `s3_pomes.s3_setup` (s3_pomes.py lines 12-53): accept the parameters when
the engine is `"aws"` or `"minio"` and `endpoint_url`, `bucket_name`,
`access_key` and `secret_key` are all truthy; then store the parameter dict and
append the engine to `_S3_ENGINES` unless already present.  Returns the
accepted flag and the updated configuration. -/
def s3_setup (cfg : S3Config) (engine endpoint_url bucket_name access_key secret_key : String)
    (region_name : Option String) (secure_access : Option Bool) : Bool × S3Config :=
  if (engine = "aws" ∨ engine = "minio") ∧
      endpoint_url ≠ "" ∧ bucket_name ≠ "" ∧ access_key ≠ "" ∧ secret_key ≠ "" then
    (true,
     { accessData := mapInsert cfg.accessData engine
         (setup_access_data endpoint_url bucket_name access_key secret_key
           secure_access region_name),
       engines :=
         if cfg.engines.contains engine then cfg.engines else cfg.engines ++ [engine] })
  else
    (false, cfg)

/-- An object held by the vendor store: its bytes, its declared content type,
and its metadata tags. -/
structure S3Obj where
  data : List Nat
  contentType : String
  meta : List (String × String)
  deriving DecidableEq, Repr

/-- The vendor store: an association from (bucket, key) to objects. -/
abbrev S3State := List ((String × String) × S3Obj)

/-- The byte-range selection performed by the vendor for a
`Range: bytes=a-b` header (inclusive positions), `none` meaning all bytes. -/
def applyRange : Option (Nat × Nat) → List Nat → List Nat
  | none, l => l
  | some (a, b), l => (l.drop a).take (b + 1 - a)

/-- The exception the vendor reports for a missing key. -/
def noSuchKeyExc : Exc := { code := some "NoSuchKey", text := "The specified key does not exist." }

/-- Vendor `get_object` (external S3 contract): the object at the key (with the
requested byte range applied to its body), or a `NoSuchKey` exception. -/
def get_object (s : S3State) (bucket key : String) (rng : Option (Nat × Nat)) :
    Except Exc S3Obj :=
  match s.lookup (bucket, key) with
  | some obj => .ok { obj with data := applyRange rng obj.data }
  | none => .error noSuchKeyExc

/-- Vendor `put_object` (external S3 contract): replace the object at the key. -/
def put_object (s : S3State) (bucket key : String) (obj : S3Obj) : S3State :=
  ((bucket, key), obj) :: s.filter (fun p => p.1 ≠ (bucket, key))

/-- Vendor `remove_object` (external S3 contract as the spec describes it):
delete the object at the key, reporting `NoSuchKey` when it is absent. -/
def remove_object (s : S3State) (bucket key : String) : Except Exc S3State :=
  if (s.lookup (bucket, key)).isSome then
    .ok (s.filter (fun p => p.1 ≠ (bucket, key)))
  else
    .error noSuchKeyExc

/-- String prefix test on the character sequences (same relation as
`String.isPrefixOf`, stated so that the kernel can evaluate it). -/
def strStartsWith (s pfx : String) : Bool := pfx.data.isPrefixOf s.data

/-- String suffix test on the character sequences (same relation as
`String.endsWith`, stated so that the kernel can evaluate it). -/
def strEndsWith (s suf : String) : Bool := suf.data.isSuffixOf s.data

/-- The keys of the store's objects in `bucket` whose key starts with `pfx`. -/
def keysUnder (s : S3State) (bucket pfx : String) : List String :=
  (s.map (fun p => p.1)).filterMap
    (fun bk => if bk.1 = bucket ∧ strStartsWith bk.2 pfx then some bk.2 else none)

/-- Vendor `list_objects_v2` (external S3/boto3 contract): at most `maxKeys`
keys under the prefix; when the listing is empty the reply carries no
`Contents` entry at all, modelled by `none`. -/
def list_objects_v2 (s : S3State) (bucket pfx : String) (maxKeys : Nat) :
    Option (List String) :=
  let sel := (keysUnder s bucket pfx).take maxKeys
  if sel.isEmpty then none else some sel

/-- The storage key composed from a prefix and an identifier,
`Path(prefix) / identifier` rendered as posix (aws_pomes.py, e.g. lines
117-118); for the plain non-empty prefixes the adapters are called with, this
is slash concatenation. -/
def objKey (pfx identifier : String) : String := pfx ++ "/" ++ identifier

/-- `aws_pomes.get_client` (aws_pomes.py lines 14-47): `boto3.client` either
yields a client or raises; on failure the formatted message is appended to the
caller's `errors` and `None` is returned.  The outcome of the `boto3.client`
call is the explicit argument `cr`. -/
def get_client (cr : Except Exc Unit) (accessData : AccessMap) :
    Option Unit × List String :=
  match cr with
  | .ok _ => (some (), [])
  | .error e => (none, [_except_msg accessData "aws" e])

/-- `aws_pomes.data_retrieve` (aws_pomes.py lines 89-136): obtain a client,
issue the vendor `get_object` call (outcome `getRes`), return the reply body;
an exception whose `code` is `"NoSuchKey"` is silently turned into `None`,
any other exception appends the formatted message.  Result: (returned bytes,
messages appended to the caller's `errors`). -/
def data_retrieve (cr : Except Exc Unit) (getRes : Except Exc S3Obj)
    (accessData : AccessMap) : Option (List Nat) × List String :=
  match get_client cr accessData with
  | (some _, es) =>
    match getRes with
    | .ok obj => (some obj.data, es)
    | .error e =>
      if e.code = some "NoSuchKey" then (none, es)
      else (none, es ++ [_except_msg accessData "aws" e])
  | (none, es) => (none, es)

/-- `aws_pomes.data_retrieve` instantiated with the vendor store semantics. -/
def data_retrieve_s (cr : Except Exc Unit) (s : S3State) (bucket pfx identifier : String)
    (data_range : Option (Nat × Nat)) (accessData : AccessMap) :
    Option (List Nat) × List String :=
  data_retrieve cr (get_object s bucket (objKey pfx identifier) data_range) accessData

/-- `aws_pomes.data_store` (aws_pomes.py lines 139-197): obtain a client and
issue the vendor `put_object` call, which may update the store (type `σ`).
The source initializes `result: bool = True` (line 163) and no branch ever
assigns `False`: when the client cannot be obtained, and when `put_object`
raises (the handler only appends the error message), `True` is still
returned.  Result: (returned flag, store after the call, messages appended to
the caller's `errors`). -/
def data_store {σ : Type} (cr : Except Exc Unit) (put : σ → Except Exc σ)
    (s : σ) (accessData : AccessMap) : Bool × σ × List String :=
  match get_client cr accessData with
  | (some _, es) =>
    match put s with
    | .ok s2 => (true, s2, es)
    | .error e => (true, s, es ++ [_except_msg accessData "aws" e])
  | (none, es) => (true, s, es)

/-- The vendor `put_object` call issued by `data_store` (aws_pomes.py lines
182-187), on the store semantics: always succeeds and records the body, the
declared content type, and the normalized tags under the composed key. -/
def put_object_call (bucket pfx identifier : String) (dat : List Nat)
    (mimetype : String) (tags : List (String × String)) (s : S3State) :
    Except Exc S3State :=
  .ok (put_object s bucket (objKey pfx identifier)
        { data := dat, contentType := mimetype, meta := _normalize_tags tags })

/-- `aws_pomes.data_store` instantiated with the vendor store semantics. -/
def data_store_s (cr : Except Exc Unit) (s : S3State) (bucket pfx identifier : String)
    (dat : List Nat) (mimetype : String) (tags : List (String × String))
    (accessData : AccessMap) : Bool × S3State × List String :=
  data_store cr (put_object_call bucket pfx identifier dat mimetype tags) s accessData

/-- `aws_pomes.item_get_info` (aws_pomes.py lines 307-383): obtain a client,
issue the vendor `get_object_attributes` call (outcome `attrRes`, its reply
abstracted as the stored object), return the reply; `"NoSuchKey"` exceptions
are silent, any other exception appends the formatted message. -/
def item_get_info (cr : Except Exc Unit) (attrRes : Except Exc S3Obj)
    (accessData : AccessMap) : Option S3Obj × List String :=
  match get_client cr accessData with
  | (some _, es) =>
    match attrRes with
    | .ok info => (some info, es)
    | .error e =>
      if e.code = some "NoSuchKey" then (none, es)
      else (none, es ++ [_except_msg accessData "aws" e])
  | (none, es) => (none, es)

/-- `aws_pomes.item_get_tags` (aws_pomes.py lines 386-475): obtain a client,
issue the vendor `head_object` call (outcome `headRes`), return the reply's
`Metadata` entry; `"NoSuchKey"` exceptions are silent, any other exception
appends the formatted message. -/
def item_get_tags (cr : Except Exc Unit) (headRes : Except Exc S3Obj)
    (accessData : AccessMap) : Option (List (String × String)) × List String :=
  match get_client cr accessData with
  | (some _, es) =>
    match headRes with
    | .ok info => (some info.meta, es)
    | .error e =>
      if e.code = some "NoSuchKey" then (none, es)
      else (none, es ++ [_except_msg accessData "aws" e])
  | (none, es) => (none, es)

/-- `aws_pomes._item_delete` (aws_pomes.py lines 665-693): issue the vendor
delete call `rm` (which may update the store, type `σ`); return `1` on
success, `0` otherwise; `"NoSuchKey"` exceptions are silent, any other
exception appends the formatted message to the list the caller passed in. -/
def _item_delete {σ : Type} (rm : σ → String → Except Exc σ) (s : σ)
    (key : String) (accessData : AccessMap) : Nat × σ × List String :=
  match rm s key with
  | .ok s2 => (1, s2, [])
  | .error e =>
    if e.code = some "NoSuchKey" then (0, s, [])
    else (0, s, [_except_msg accessData "aws" e])

/-- The CPython message for iterating over `None`
(`for content in reply.get("Contents")` when `Contents` is absent). -/
def typeErrorText : String := "TypeError: 'NoneType' object is not iterable"

/-- `aws_pomes.items_list` (aws_pomes.py lines 534-617): obtain a client
(outcome `cr`), issue the vendor `list_objects_v2` call (outcome `listRes`,
its `Contents` entry abstracted as the list of keys, absent when the listing
is empty); keys ending in `"/"` are filtered out of the result.  Any exception
of the vendor call - including one whose `code` is `"NoSuchKey"`, and the
`TypeError` raised by iterating an absent `Contents` - appends the formatted
message; there is no not-found filter in this function. -/
def items_list (cr : Except Exc Unit) (listRes : Except Exc (Option (List String)))
    (accessData : AccessMap) : Option (List String) × List String :=
  match get_client cr accessData with
  | (some _, es) =>
    match listRes with
    | .ok (some contents) => (some (contents.filter (fun k => !strEndsWith k "/")), es)
    | .ok none => (none, es ++ [_except_msg accessData "aws" { code := none, text := typeErrorText }])
    | .error e => (none, es ++ [_except_msg accessData "aws" e])
  | (none, es) => (none, es)

/-- The deletion loop shared by `aws_pomes.items_remove` (lines 653-661) and
the folder branch of `aws_pomes.item_remove` (lines 522-530): iterate over the
listed keys; before each key, stop if the local `op_errors` list is non-empty
or the running count has reached `maxCount`; otherwise delete the key via
`_item_delete`, accumulating its success into the count and its messages into
`op_errors`. -/
def items_remove_loop {σ : Type} (rm : σ → String → Except Exc σ)
    (accessData : AccessMap) (maxCount : Nat) :
    List String → σ → Nat → List String → Nat × σ × List String
  | [], s, result, opErrs => (result, s, opErrs)
  | key :: rest, s, result, opErrs =>
    if opErrs ≠ [] ∨ maxCount ≤ result then (result, s, opErrs)
    else
      match _item_delete rm s key accessData with
      | (d, s2, es) =>
        items_remove_loop rm accessData maxCount rest s2 (result + d) (opErrs ++ es)

/-- `aws_pomes.items_remove` (aws_pomes.py lines 620-662): obtain a client
(outcome `cr`; on failure the whole block is skipped and `0` returned), then
call `items_list` with a LOCAL `op_errors` list (and a fresh client, outcome
`lcr`), then run the deletion loop, whose errors also go only to `op_errors`.
The local list is never merged into the caller's `errors`.  When `items_list`
yields `None` the `for` loop raises `TypeError`, which propagates out of the
function: that outcome is `.error es` where `es` are the messages appended to
the caller's `errors` up to the raise.  A normal return is
`.ok (count, store, messages appended to the caller's list)`. -/
def items_remove {σ : Type} (rm : σ → String → Except Exc σ) (cr lcr : Except Exc Unit)
    (listRes : Except Exc (Option (List String))) (maxCount : Nat) (s : σ)
    (accessData : AccessMap) : Except (List String) (Nat × σ × List String) :=
  match get_client cr accessData with
  | (some _, es) =>
    match items_list lcr listRes accessData with
    | (none, _) => .error es
    | (some keys, opErrs) =>
      match items_remove_loop rm accessData maxCount keys s 0 opErrs with
      | (result, s2, _) => .ok (result, s2, es)
  | (none, es) => .ok (0, s, es)

/-- `aws_pomes.item_remove` (aws_pomes.py lines 478-531): obtain a client; with
an identifier, delete the single composed key via `_item_delete`, whose
messages go to the CALLER's `errors` list; without one, run the folder branch,
which mirrors `items_remove` with the constant bound 10000 and a local
`op_errors` list. -/
def item_remove {σ : Type} (rm : σ → String → Except Exc σ) (cr lcr : Except Exc Unit)
    (listRes : Except Exc (Option (List String))) (pfx : String)
    (identifier : Option String) (s : σ) (accessData : AccessMap) :
    Except (List String) (Nat × σ × List String) :=
  match get_client cr accessData with
  | (some _, es) =>
    match identifier with
    | some ident =>
      match _item_delete rm s (objKey pfx ident) accessData with
      | (d, s2, des) => .ok (d, s2, es ++ des)
    | none =>
      match items_list lcr listRes accessData with
      | (none, _) => .error es
      | (some keys, opErrs) =>
        match items_remove_loop rm accessData 10000 keys s 0 opErrs with
        | (result, s2, _) => .ok (result, s2, es)
  | (none, es) => .ok (0, s, es)

/-- The vendor delete call issued for `bucket` on the store semantics. -/
def remove_object_call (bucket : String) (s : S3State) (key : String) :
    Except Exc S3State :=
  remove_object s bucket key

/-- `aws_pomes.items_remove` instantiated with the vendor store semantics:
the listing reflects the store at call time, deletions update the store. -/
def items_remove_s (cr : Except Exc Unit) (s : S3State) (bucket pfx : String)
    (maxCount : Nat) (accessData : AccessMap) :
    Except (List String) (Nat × S3State × List String) :=
  items_remove (remove_object_call bucket) cr (.ok ())
    (.ok (list_objects_v2 s bucket pfx maxCount)) maxCount s accessData

/-- `aws_pomes.item_remove` instantiated with the vendor store semantics. -/
def item_remove_s (cr : Except Exc Unit) (s : S3State) (bucket pfx : String)
    (identifier : Option String) (accessData : AccessMap) :
    Except (List String) (Nat × S3State × List String) :=
  item_remove (remove_object_call bucket) cr (.ok ())
    (.ok (list_objects_v2 s bucket pfx 10000)) pfx identifier s accessData

/-- The messages a removal call appends to the caller's `errors` list,
whether it returns normally or propagates the iteration `TypeError`. -/
def callerErrs {σ : Type} : Except (List String) (Nat × σ × List String) → List String
  | .error es => es
  | .ok (_, _, es) => es

/-- A heap of mutable Python objects of contents `α`: allocated cells indexed
by identity, plus the next fresh identity.  Used to state the copy ("SANITY-
CHECK") behaviour of `s3_get_engines` and `s3_get_params`, which is about
object identity in Python. -/
structure Heap (α : Type) where
  cells : List (Nat × α)
  next : Nat
  deriving DecidableEq, Repr

/-- The contents of the object with identity `r` (default for unallocated). -/
def Heap.read {α : Type} (h : Heap α) (r : Nat) (dflt : α) : α :=
  (h.cells.lookup r).getD dflt

/-- Mutate the object with identity `r` in place. -/
def Heap.write {α : Type} (h : Heap α) (r : Nat) (v : α) : Heap α :=
  { h with cells := (r, v) :: h.cells }

/-- Allocate a fresh object with contents `v`; returns its identity. -/
def Heap.alloc {α : Type} (h : Heap α) (v : α) : Nat × Heap α :=
  (h.next, { cells := (h.next, v) :: h.cells, next := h.next + 1 })

/-- `s3_pomes.s3_get_engines` (s3_pomes.py lines 56-65): return
`_S3_ENGINES.copy()`, a freshly allocated list with the same contents as the
process-wide list living at identity `engRef`. -/
def s3_get_engines (h : Heap (List String)) (engRef : Nat) :
    Nat × Heap (List String) :=
  h.alloc (h.read engRef [])

/-- `s3_pomes.s3_get_params` (s3_pomes.py lines 89-103): return
`dict(_S3_ACCESS_DATA.get(curr_engine))`, a freshly allocated dict with the
same entries as the resolved engine's parameter dict living at identity
`dictRef` (the dict's values are immutable Python primitives). -/
def s3_get_params (h : Heap PyDict) (dictRef : Nat) : Nat × Heap PyDict :=
  h.alloc (h.read dictRef [])

/-- A sequence of in-place mutations of the object at identity `r`, each one
replacing its contents (covering appends, deletions, and item assignments). -/
def applyWrites {α : Type} (r : Nat) (ws : List α) (h : Heap α) : Heap α :=
  ws.foldl (fun h2 v => h2.write r v) h

/-- C5 counterexample: with `["aws"]` configured, the empty string is a name
not in the configured list, yet `_assert_engine` resolves it to the first
configured engine and appends no error (Python truthiness treats `""` like
`None`), contradicting the claim that resolving any unconfigured name appends
an error and yields no engine. -/
theorem c5_counterexample :
    ("" ∈ (["aws"] : List String) → False) ∧
    _assert_engine ["aws"] (some "") = (some "aws", []) :=
  ⟨by decide, rfl⟩

/-- C5 (amended): for every configured-engines list and every NON-EMPTY name
`U` not in it, resolving `U` appends an explicit error string and yields no
engine, while resolving `None` (when at least one engine is configured) yields
the first configured engine without error. -/
theorem c5_assert_engine (engines : List String) (U : String)
    (hU : U ≠ "") (hmem : U ∉ engines) :
    _assert_engine engines (some U) =
      (none, ["S3 engine '" ++ U ++ "' unknown or not configured"]) ∧
    (engines ≠ [] → _assert_engine engines none = (engines.head?, [])) := by
  constructor
  · simp [_assert_engine, pyTruthyStr, pyStrOpt, hU, hmem]
  · intro hne
    simp [_assert_engine, pyTruthyStr, hne]

/-- C5 witness: the amended statement at `engines = ["aws"]`, `U = "zzz"`. -/
theorem c5_assert_engine_witness :
    (("zzz" : String) ≠ "" ∧ "zzz" ∉ (["aws"] : List String)) ∧
    (_assert_engine ["aws"] (some "zzz") =
        (none, ["S3 engine 'zzz' unknown or not configured"]) ∧
      ((["aws"] : List String) ≠ [] →
        _assert_engine ["aws"] none = ((["aws"] : List String).head?, []))) :=
  ⟨⟨by decide, by decide⟩, c5_assert_engine ["aws"] "zzz" (by decide) (by decide)⟩

/-- C6: evaluation at the failing input.  For an aws engine configured from
the environment (s3_common.py lines 45-52) with region `"sa-east-1"`, the
message formatted for a non-not-found vendor failure reads `at 'None'`, not
`at 'sa-east-1'`: the region was stored under the key `"client"` (line 52)
while `_s3_except_msg` reads `"region-name"` (line 138), which its own
module's docstrings say should hold the aws region. -/
theorem c6_env_aws_region_under_client_key :
    _except_msg [("aws", env_aws_data "AK" "SK" "BUCKET" "/tmp/s3" "sa-east-1")] "aws"
        { code := some "InternalError", text := "boom" } =
      "Error accessing 'aws' at 'None': boom" ∧
    dictGet (env_aws_data "AK" "SK" "BUCKET" "/tmp/s3" "sa-east-1") "region-name" = .null ∧
    dictGet (env_aws_data "AK" "SK" "BUCKET" "/tmp/s3" "sa-east-1") "client" = .str "sa-east-1" :=
  ⟨rfl, rfl, rfl⟩

/-- C3: evaluation at the failing input.  `aws_pomes.data_store` initializes
`result` to `True` (line 163) and no failure branch assigns `False`: when the
vendor `put_object` call raises a non-not-found exception the error message is
appended but `True` is still returned (and nothing was stored), and when the
client cannot be obtained `True` is returned as well - contradicting the
function's own docstring (return `False` when the data was not stored). -/
theorem c3_data_store_true_despite_failure :
    (data_store (.ok ())
        (fun _ => (.error { code := some "InternalError", text := "upload failed" } : Except Exc S3State))
        ([] : S3State)
        [("aws", setup_access_data "http://x" "bkt" "AK" "SK" none (some "sa-east-1"))]) =
      (true, ([] : S3State), ["Error accessing 'aws' at 'sa-east-1': upload failed"]) ∧
    (data_store (.error { code := none, text := "no credentials" })
        (fun s => (.ok s : Except Exc S3State))
        ([] : S3State)
        [("aws", setup_access_data "http://x" "bkt" "AK" "SK" none (some "sa-east-1"))]).1 =
      true :=
  ⟨rfl, rfl⟩

/-- C4 counterexample: the listing operation does NOT degrade a vendor
not-found report to an empty result silently: `items_list` has no
`"NoSuchKey"` filter, so a vendor exception with that code appends an error
message to the caller's list, contradicting the claim for the listing
operation. -/
theorem c4_counterexample :
    noSuchKeyExc.code = some "NoSuchKey" ∧
    (items_list (.ok ()) (.error noSuchKeyExc) []).2 =
      ["Error accessing 'aws' at 'None': The specified key does not exist."] :=
  ⟨rfl, rfl⟩

/-- C4 (amended): when the vendor reports not-found (`code = "NoSuchKey"`),
the retrieve, stat, tag-retrieval and removal operations return an
empty/absent result and append nothing to the caller's error list; the
listing operation, however, treats the report like any other failure and
appends the formatted error message. -/
theorem c4_not_found_silent (e : Exc) (he : e.code = some "NoSuchKey")
    (accessData : AccessMap) (key : String) :
    data_retrieve (.ok ()) (.error e) accessData = (none, []) ∧
    item_get_info (.ok ()) (.error e) accessData = (none, []) ∧
    item_get_tags (.ok ()) (.error e) accessData = (none, []) ∧
    _item_delete (fun (_ : Unit) _ => (.error e : Except Exc Unit)) () key accessData =
      (0, (), []) ∧
    items_list (.ok ()) (.error e) accessData =
      (none, [_except_msg accessData "aws" e]) := by
  refine ⟨?_, ?_, ?_, ?_, ?_⟩ <;>
    simp [data_retrieve, item_get_info, item_get_tags, _item_delete, items_list,
      get_client, he]

/-- C4 witness: the amended statement at the vendor's `NoSuchKey` exception. -/
theorem c4_not_found_silent_witness :
    noSuchKeyExc.code = some "NoSuchKey" ∧
    (data_retrieve (.ok ()) (.error noSuchKeyExc) [] = (none, []) ∧
      item_get_info (.ok ()) (.error noSuchKeyExc) [] = (none, []) ∧
      item_get_tags (.ok ()) (.error noSuchKeyExc) [] = (none, []) ∧
      _item_delete (fun (_ : Unit) _ => (.error noSuchKeyExc : Except Exc Unit)) () "folder/item" [] =
        (0, (), []) ∧
      items_list (.ok ()) (.error noSuchKeyExc) [] =
        (none, [_except_msg [] "aws" noSuchKeyExc])) :=
  ⟨rfl, c4_not_found_silent noSuchKeyExc rfl [] "folder/item"⟩

/-- C7: removing a single item whose composed key is absent from the store
returns a success count of zero and appends no error: the vendor delete call
reports `NoSuchKey`, which `_item_delete` silently maps to `0`. -/
theorem c7_item_remove_missing_key (s : S3State) (bucket pfx ident : String)
    (accessData : AccessMap) (h : s.lookup (bucket, objKey pfx ident) = none) :
    item_remove_s (.ok ()) s bucket pfx (some ident) accessData = .ok (0, s, []) := by
  simp [item_remove_s, item_remove, get_client, _item_delete, remove_object_call,
    remove_object, h, noSuchKeyExc]

/-- C7 witness: deleting `"p/x"` from the empty store. -/
theorem c7_item_remove_missing_key_witness :
    List.lookup ("b", objKey "p" "x") ([] : S3State) = none ∧
    item_remove_s (.ok ()) [] "b" "p" (some "x") [] = .ok (0, [], []) :=
  ⟨rfl, c7_item_remove_missing_key [] "b" "p" "x" [] rfl⟩

/-- C1: storing data and then retrieving it with the same bucket, prefix and
identifier (no data range) succeeds: the retrieve returns exactly the stored
bytes, and the vendor reply at the composed key carries the declared
content-type (and the normalized tags). -/
theorem c1_store_retrieve_roundtrip (s : S3State) (bucket pfx identifier : String)
    (dat : List Nat) (mimetype : String) (tags : List (String × String))
    (accessData : AccessMap) :
    data_retrieve_s (.ok ())
        (data_store_s (.ok ()) s bucket pfx identifier dat mimetype tags accessData).2.1
        bucket pfx identifier none accessData = (some dat, []) ∧
    get_object (data_store_s (.ok ()) s bucket pfx identifier dat mimetype tags accessData).2.1
        bucket (objKey pfx identifier) none =
      .ok { data := dat, contentType := mimetype, meta := _normalize_tags tags } := by
  have hget : get_object
      (put_object s bucket (objKey pfx identifier)
        { data := dat, contentType := mimetype, meta := _normalize_tags tags })
      bucket (objKey pfx identifier) none =
      .ok { data := dat, contentType := mimetype, meta := _normalize_tags tags } := by
    simp [get_object, put_object, List.lookup, applyRange]
  exact ⟨by simp [data_retrieve_s, data_store_s, data_store, put_object_call,
      data_retrieve, get_client, hget],
    hget⟩

/-- C9: `s3_setup` returns `True` exactly when the engine is `"aws"` or
`"minio"` and `endpoint_url`, `bucket_name`, `access_key` and `secret_key`
are all non-empty; on `False` the configuration is unchanged; on `True`
(starting from a state where the engine is configured at most once, as every
reachable state is) the engine appears exactly once in the configured-engines
list - no duplicate is ever appended. -/
theorem c9_s3_setup (cfg : S3Config)
    (engine endpoint_url bucket_name access_key secret_key : String)
    (region_name : Option String) (secure_access : Option Bool)
    (hcount : cfg.engines.count engine ≤ 1) :
    ((s3_setup cfg engine endpoint_url bucket_name access_key secret_key
        region_name secure_access).1 = true ↔
      ((engine = "aws" ∨ engine = "minio") ∧ endpoint_url ≠ "" ∧
        bucket_name ≠ "" ∧ access_key ≠ "" ∧ secret_key ≠ "")) ∧
    ((s3_setup cfg engine endpoint_url bucket_name access_key secret_key
        region_name secure_access).1 = false →
      (s3_setup cfg engine endpoint_url bucket_name access_key secret_key
        region_name secure_access).2 = cfg) ∧
    ((s3_setup cfg engine endpoint_url bucket_name access_key secret_key
        region_name secure_access).1 = true →
      (s3_setup cfg engine endpoint_url bucket_name access_key secret_key
        region_name secure_access).2.engines.count engine = 1) := by
  by_cases h : (engine = "aws" ∨ engine = "minio") ∧ endpoint_url ≠ "" ∧
      bucket_name ≠ "" ∧ access_key ≠ "" ∧ secret_key ≠ ""
  · refine ⟨by simp [s3_setup, h], by simp [s3_setup, h], fun _ => ?_⟩
    by_cases hm : engine ∈ cfg.engines
    · have h1 : 0 < cfg.engines.count engine := List.count_pos_iff.mpr hm
      have h2 : cfg.engines.count engine = 1 := Nat.le_antisymm hcount h1
      simp [s3_setup, h, hm, h2]
    · simp [s3_setup, h, hm, List.count_append, List.count_eq_zero.mpr hm]
  · simp [s3_setup, h]

/-- C9 witness: the statement at a fresh configuration and valid aws
parameters. -/
theorem c9_s3_setup_witness :
    (S3Config.mk [] []).engines.count "aws" ≤ 1 ∧
    (((s3_setup (S3Config.mk [] []) "aws" "http://x" "bkt" "AK" "SK" none none).1 = true ↔
        ((("aws" : String) = "aws" ∨ ("aws" : String) = "minio") ∧
          ("http://x" : String) ≠ "" ∧ ("bkt" : String) ≠ "" ∧
          ("AK" : String) ≠ "" ∧ ("SK" : String) ≠ "")) ∧
      ((s3_setup (S3Config.mk [] []) "aws" "http://x" "bkt" "AK" "SK" none none).1 = false →
        (s3_setup (S3Config.mk [] []) "aws" "http://x" "bkt" "AK" "SK" none none).2 =
          S3Config.mk [] []) ∧
      ((s3_setup (S3Config.mk [] []) "aws" "http://x" "bkt" "AK" "SK" none none).1 = true →
        (s3_setup (S3Config.mk [] []) "aws" "http://x" "bkt" "AK" "SK" none none).2.engines.count
          "aws" = 1)) :=
  ⟨by decide,
   c9_s3_setup (S3Config.mk [] []) "aws" "http://x" "bkt" "AK" "SK" none none (by decide)⟩

/-- C8: for every vendor behaviour (client outcomes, listing outcome,
per-key deletion outcomes) and every starting store, the only messages
`items_remove` - and the folder branch of `item_remove` - append to the
caller's `errors` list are those produced by their own client acquisition:
listing and deletion errors are collected in the local `op_errors` list,
which is never merged into the caller's list, even when the removal is
aborted by a deletion error or by the listing failure's `TypeError`. -/
theorem c8_items_remove_local_errors {σ : Type} (rm : σ → String → Except Exc σ)
    (cr lcr : Except Exc Unit) (listRes : Except Exc (Option (List String)))
    (maxCount : Nat) (s : σ) (accessData : AccessMap) (pfx : String) :
    callerErrs (items_remove rm cr lcr listRes maxCount s accessData) =
      (get_client cr accessData).2 ∧
    callerErrs (item_remove rm cr lcr listRes pfx none s accessData) =
      (get_client cr accessData).2 := by
  constructor
  · cases cr with
    | error e => simp [items_remove, get_client, callerErrs]
    | ok u =>
      simp only [items_remove, get_client]
      rcases h : items_list lcr listRes accessData with ⟨fst, snd⟩
      cases fst with
      | none => simp [callerErrs]
      | some keys =>
        rcases hl : items_remove_loop rm accessData maxCount keys s 0 snd with ⟨r, s2, op⟩
        simp [callerErrs]
  · cases cr with
    | error e => simp [item_remove, get_client, callerErrs]
    | ok u =>
      simp only [item_remove, get_client]
      rcases h : items_list lcr listRes accessData with ⟨fst, snd⟩
      cases fst with
      | none => simp [callerErrs]
      | some keys =>
        rcases hl : items_remove_loop rm accessData 10000 keys s 0 snd with ⟨r, s2, op⟩
        simp [callerErrs]

theorem heap_read_write_ne {α : Type} (h : Heap α) (r q : Nat) (v : α) (dflt : α)
    (hne : q ≠ r) : (h.write r v).read q dflt = h.read q dflt := by
  have hb : (q == r) = false := by simpa using hne
  simp [Heap.write, Heap.read, List.lookup, hb]

theorem heap_read_alloc_ne {α : Type} (h : Heap α) (q : Nat) (v : α) (dflt : α)
    (hne : q ≠ h.next) : (h.alloc v).2.read q dflt = h.read q dflt := by
  have hb : (q == h.next) = false := by simpa using hne
  simp [Heap.alloc, Heap.read, List.lookup, hb]

theorem heap_read_alloc_self {α : Type} (h : Heap α) (v : α) (dflt : α) :
    (h.alloc v).2.read (h.alloc v).1 dflt = v := by
  simp [Heap.alloc, Heap.read, List.lookup]

theorem heap_read_applyWrites_ne {α : Type} (r q : Nat) (ws : List α) (h : Heap α)
    (dflt : α) (hne : q ≠ r) :
    (applyWrites r ws h).read q dflt = h.read q dflt := by
  induction ws generalizing h with
  | nil => rfl
  | cons w ws ih =>
    have hstep : applyWrites r (w :: ws) h = applyWrites r ws (h.write r w) := rfl
    rw [hstep, ih (h.write r w), heap_read_write_ne h r q w dflt hne]

/-- C10: `s3_get_engines` and `s3_get_params` return freshly allocated copies
of the process-wide state: the returned object is distinct from the global
one; after any sequence of in-place mutations of the returned copy, the
global list/dict is unchanged; and a subsequent call observes (and returns a
copy holding) the original contents. -/
theorem c10_copies_isolate_global_state
    (h : Heap (List String)) (engRef : Nat) (ws : List (List String))
    (hp : Heap PyDict) (dictRef : Nat) (wsd : List PyDict)
    (h1 : engRef < h.next) (h2 : dictRef < hp.next) :
    ((s3_get_engines h engRef).1 ≠ engRef ∧
      (applyWrites (s3_get_engines h engRef).1 ws (s3_get_engines h engRef).2).read engRef [] =
        h.read engRef [] ∧
      (s3_get_engines
          (applyWrites (s3_get_engines h engRef).1 ws (s3_get_engines h engRef).2) engRef).2.read
        (s3_get_engines
          (applyWrites (s3_get_engines h engRef).1 ws (s3_get_engines h engRef).2) engRef).1 [] =
        h.read engRef []) ∧
    ((s3_get_params hp dictRef).1 ≠ dictRef ∧
      (applyWrites (s3_get_params hp dictRef).1 wsd (s3_get_params hp dictRef).2).read dictRef [] =
        hp.read dictRef [] ∧
      (s3_get_params
          (applyWrites (s3_get_params hp dictRef).1 wsd (s3_get_params hp dictRef).2) dictRef).2.read
        (s3_get_params
          (applyWrites (s3_get_params hp dictRef).1 wsd (s3_get_params hp dictRef).2) dictRef).1 [] =
        hp.read dictRef []) := by
  have hne1 : engRef ≠ h.next := Nat.ne_of_lt h1
  have hne2 : dictRef ≠ hp.next := Nat.ne_of_lt h2
  have hglob1 :
      (applyWrites (s3_get_engines h engRef).1 ws (s3_get_engines h engRef).2).read engRef [] =
        h.read engRef [] := by
    rw [show (s3_get_engines h engRef).1 = h.next from rfl]
    rw [heap_read_applyWrites_ne h.next engRef ws _ [] hne1]
    exact heap_read_alloc_ne h engRef _ [] hne1
  have hglob2 :
      (applyWrites (s3_get_params hp dictRef).1 wsd (s3_get_params hp dictRef).2).read dictRef [] =
        hp.read dictRef [] := by
    rw [show (s3_get_params hp dictRef).1 = hp.next from rfl]
    rw [heap_read_applyWrites_ne hp.next dictRef wsd _ [] hne2]
    exact heap_read_alloc_ne hp dictRef _ [] hne2
  refine ⟨⟨fun hc => hne1 hc.symm, hglob1, ?_⟩, ⟨fun hc => hne2 hc.symm, hglob2, ?_⟩⟩
  · rw [show ∀ (g : Heap (List String)), (s3_get_engines g engRef).2.read
        (s3_get_engines g engRef).1 [] = g.read engRef []
      from fun g => heap_read_alloc_self g (g.read engRef []) []]
    exact hglob1
  · rw [show ∀ (g : Heap PyDict), (s3_get_params g dictRef).2.read
        (s3_get_params g dictRef).1 [] = g.read dictRef []
      from fun g => heap_read_alloc_self g (g.read dictRef []) []]
    exact hglob2

/-- C10 witness: the statement at a one-cell heap for each structure, with one
mutation of each returned copy. -/
theorem c10_copies_isolate_global_state_witness :
    (0 < (Heap.mk [(0, ["aws"])] 1 : Heap (List String)).next ∧
      0 < (Heap.mk [(0, [("bucket-name", PyVal.str "bkt")])] 1 : Heap PyDict).next) ∧
    ((s3_get_engines (Heap.mk [(0, ["aws"])] 1) 0).1 ≠ 0 ∧
      (applyWrites (s3_get_engines (Heap.mk [(0, ["aws"])] 1) 0).1 [["minio"]]
        (s3_get_engines (Heap.mk [(0, ["aws"])] 1) 0).2).read 0 [] =
        (Heap.mk [(0, ["aws"])] 1 : Heap (List String)).read 0 []) := by
  refine ⟨⟨by decide, by decide⟩, ?_, ?_⟩
  · exact (c10_copies_isolate_global_state (Heap.mk [(0, ["aws"])] 1) 0 [["minio"]]
      (Heap.mk [(0, [("bucket-name", PyVal.str "bkt")])] 1) 0 [[]]
      (by decide) (by decide)).1.1
  · exact (c10_copies_isolate_global_state (Heap.mk [(0, ["aws"])] 1) 0 [["minio"]]
      (Heap.mk [(0, [("bucket-name", PyVal.str "bkt")])] 1) 0 [[]]
      (by decide) (by decide)).1.2.1

theorem s3_lookup_isSome_of_mem (s : S3State) (bk : String × String)
    (h : bk ∈ s.map Prod.fst) : (s.lookup bk).isSome := by
  induction s with
  | nil => simp at h
  | cons p t ih =>
    simp only [List.map_cons, List.mem_cons] at h
    by_cases he : bk = p.1
    · have hb : (bk == p.1) = true := by simpa using he
      simp [List.lookup, hb]
    · have hb : (bk == p.1) = false := by simpa using he
      rcases h with h | h
      · exact absurd h he
      · simpa [List.lookup, hb] using ih h

theorem s3_map_fst_filter (s : S3State) (x : String × String) :
    (s.filter (fun p => p.1 ≠ x)).map Prod.fst =
      (s.map Prod.fst).filter (fun bk => bk ≠ x) := by
  induction s with
  | nil => rfl
  | cons p t ih =>
    by_cases he : p.1 = x
    · rw [List.filter_cons_of_neg (by simp [he]), List.map_cons,
        List.filter_cons_of_neg (by simp [he]), ih]
    · rw [List.filter_cons_of_pos (by simp [he]), List.map_cons, List.map_cons,
        List.filter_cons_of_pos (by simp [he]), ih]

theorem s3_filter_ne_length (s : S3State) (bk : String × String)
    (hnd : (s.map Prod.fst).Nodup) (hmem : bk ∈ s.map Prod.fst) :
    (s.filter (fun p => p.1 ≠ bk)).length + 1 = s.length := by
  induction s with
  | nil => simp at hmem
  | cons p t ih =>
    simp only [List.map_cons, List.nodup_cons] at hnd
    simp only [List.map_cons, List.mem_cons] at hmem
    by_cases he : p.1 = bk
    · have hnot : bk ∉ t.map Prod.fst := he ▸ hnd.1
      have hkeep : t.filter (fun q => q.1 ≠ bk) = t := by
        refine List.filter_eq_self.mpr (fun a ha => ?_)
        simp only [decide_eq_true_eq]
        intro hc
        exact hnot (hc ▸ List.mem_map_of_mem Prod.fst ha)
      rw [List.filter_cons_of_neg (by simp [he]), hkeep]
      simp
    · rcases hmem with h | h
      · exact absurd h.symm he
      · rw [List.filter_cons_of_pos (by simp [he])]
        have := ih hnd.2 h
        simp only [List.length_cons]
        omega

theorem s3_keysUnder_filter (s : S3State) (bucket pfx k : String)
    (hnd : (s.map Prod.fst).Nodup) (hmem : (bucket, k) ∈ s.map Prod.fst)
    (hpfx : strStartsWith k pfx = true) :
    (keysUnder (s.filter (fun p => p.1 ≠ (bucket, k))) bucket pfx).length + 1 =
      (keysUnder s bucket pfx).length := by
  induction s with
  | nil => simp at hmem
  | cons p t ih =>
    simp only [List.map_cons, List.nodup_cons] at hnd
    simp only [List.map_cons, List.mem_cons] at hmem
    by_cases he : p.1 = (bucket, k)
    · have hnot : (bucket, k) ∉ t.map Prod.fst := he ▸ hnd.1
      have hkeep : t.filter (fun q => q.1 ≠ (bucket, k)) = t := by
        refine List.filter_eq_self.mpr (fun a ha => ?_)
        simp only [decide_eq_true_eq]
        intro hc
        exact hnot (hc ▸ List.mem_map_of_mem Prod.fst ha)
      have hcond : p.1.1 = bucket ∧ strStartsWith p.1.2 pfx = true := by
        rw [he]; exact ⟨rfl, hpfx⟩
      rw [List.filter_cons_of_neg (by simp [he]), hkeep]
      simp only [keysUnder, List.map_cons, List.filterMap_cons, if_pos hcond]
      simp
    · rcases hmem with h | h
      · exact absurd h.symm he
      · have hstep := ih hnd.2 h
        rw [List.filter_cons_of_pos (by simp [he])]
        by_cases hc : p.1.1 = bucket ∧ strStartsWith p.1.2 pfx = true
        · simp only [keysUnder, List.map_cons, List.filterMap_cons, if_pos hc] at hstep ⊢
          simp only [List.length_cons]
          omega
        · simp only [keysUnder, List.map_cons, List.filterMap_cons, if_neg hc] at hstep ⊢
          exact hstep

theorem s3_keysUnder_nodup (s : S3State) (bucket pfx : String)
    (hnd : (s.map Prod.fst).Nodup) : (keysUnder s bucket pfx).Nodup := by
  unfold keysUnder
  induction s with
  | nil => simp
  | cons p t ih =>
    simp only [List.map_cons, List.nodup_cons] at hnd
    simp only [List.map_cons, List.filterMap_cons]
    by_cases hc : p.1.1 = bucket ∧ strStartsWith p.1.2 pfx = true
    · rw [if_pos hc]
      refine List.nodup_cons.mpr ⟨?_, ih hnd.2⟩
      intro hmem
      rcases List.mem_filterMap.mp hmem with ⟨bk, hbk, hval⟩
      by_cases hbc : bk.1 = bucket ∧ strStartsWith bk.2 pfx = true
      · rw [if_pos hbc] at hval
        have hbkeq : bk = p.1 := by
          have h2 : bk.2 = p.1.2 := Option.some_injective _ hval
          have h1 : bk.1 = p.1.1 := by rw [hbc.1, hc.1]
          exact Prod.ext h1 h2
        exact hnd.1 (hbkeq ▸ hbk)
      · rw [if_neg hbc] at hval
        exact Option.noConfusion hval
    · rw [if_neg hc]
      exact ih hnd.2

theorem s3_mem_keysUnder (s : S3State) (bucket pfx k : String)
    (h : k ∈ keysUnder s bucket pfx) :
    (bucket, k) ∈ s.map Prod.fst ∧ strStartsWith k pfx = true := by
  unfold keysUnder at h
  rcases List.mem_filterMap.mp h with ⟨bk, hbk, hval⟩
  by_cases hbc : bk.1 = bucket ∧ strStartsWith bk.2 pfx = true
  · rw [if_pos hbc] at hval
    have h2 : bk.2 = k := Option.some_injective _ hval
    have : bk = (bucket, k) := Prod.ext hbc.1 h2
    exact ⟨this ▸ hbk, h2 ▸ hbc.2⟩
  · rw [if_neg hbc] at hval
    exact Option.noConfusion hval

theorem items_remove_loop_all_present (bucket : String) (accessData : AccessMap)
    (maxCount : Nat) (ks : List String) :
    ∀ (s : S3State) (result : Nat),
      ks.Nodup →
      (∀ k ∈ ks, (bucket, k) ∈ s.map Prod.fst) →
      (s.map Prod.fst).Nodup →
      result + ks.length ≤ maxCount →
      ∃ s2 : S3State,
        items_remove_loop (remove_object_call bucket) accessData maxCount ks s result [] =
          (result + ks.length, s2, []) ∧
        s2.length + ks.length = s.length ∧
        ∀ pfx : String, (∀ k ∈ ks, strStartsWith k pfx = true) →
          (keysUnder s2 bucket pfx).length + ks.length = (keysUnder s bucket pfx).length := by
  induction ks with
  | nil =>
    intro s result _ _ _ _
    exact ⟨s, by simp [items_remove_loop], by simp, fun pfx _ => by simp⟩
  | cons k rest ih =>
    intro s result hnd hpres hsnd hle
    have hknd := List.nodup_cons.mp hnd
    have hkmem : (bucket, k) ∈ s.map Prod.fst := hpres k (List.mem_cons_self k rest)
    have hlook : (s.lookup (bucket, k)).isSome := s3_lookup_isSome_of_mem s (bucket, k) hkmem
    have hres : ¬(([] : List String) ≠ ([] : List String) ∨ maxCount ≤ result) := by
      simp only [List.length_cons] at hle
      simp only [ne_eq, not_or, not_le, not_not]
      exact ⟨trivial, by omega⟩
    have hstep : items_remove_loop (remove_object_call bucket) accessData maxCount
        (k :: rest) s result [] =
        items_remove_loop (remove_object_call bucket) accessData maxCount rest
          (s.filter (fun p => p.1 ≠ (bucket, k))) (result + 1) [] := by
      simp only [items_remove_loop]
      rw [if_neg hres]
      simp only [_item_delete, remove_object_call, remove_object, if_pos hlook]
      rfl
    have hfmap : (s.filter (fun p => p.1 ≠ (bucket, k))).map Prod.fst =
        (s.map Prod.fst).filter (fun bk => bk ≠ (bucket, k)) :=
      s3_map_fst_filter s (bucket, k)
    have hpres2 : ∀ k2 ∈ rest, (bucket, k2) ∈
        (s.filter (fun p => p.1 ≠ (bucket, k))).map Prod.fst := by
      intro k2 hk2
      rw [hfmap]
      refine List.mem_filter.mpr ⟨hpres k2 (List.mem_cons_of_mem k hk2), ?_⟩
      simp only [decide_eq_true_eq, ne_eq, Prod.mk.injEq, not_and]
      intro _ hc
      exact hknd.1 (hc ▸ hk2)
    have hsnd2 : ((s.filter (fun p => p.1 ≠ (bucket, k))).map Prod.fst).Nodup := by
      rw [hfmap]
      exact hsnd.filter _
    have hle2 : (result + 1) + rest.length ≤ maxCount := by
      simp only [List.length_cons] at hle
      omega
    obtain ⟨s2, hrec, hlen, hkeys⟩ :=
      ih (s.filter (fun p => p.1 ≠ (bucket, k))) (result + 1) hknd.2 hpres2 hsnd2 hle2
    refine ⟨s2, ?_, ?_, ?_⟩
    · rw [hstep, hrec]
      have : result + 1 + rest.length = result + (k :: rest).length := by
        simp only [List.length_cons]; omega
      rw [this]
    · have h1 : (s.filter (fun p => p.1 ≠ (bucket, k))).length + 1 = s.length :=
        s3_filter_ne_length s (bucket, k) hsnd hkmem
      simp only [List.length_cons]
      omega
    · intro pfx hall
      have hpk : strStartsWith k pfx = true := hall k (List.mem_cons_self k rest)
      have h1 : (keysUnder (s.filter (fun p => p.1 ≠ (bucket, k))) bucket pfx).length + 1 =
          (keysUnder s bucket pfx).length :=
        s3_keysUnder_filter s bucket pfx k hsnd hkmem hpk
      have h2 := hkeys pfx (fun k2 hk2 => hall k2 (List.mem_cons_of_mem k hk2))
      simp only [List.length_cons]
      omega

/-- C2 (amended): with the client obtained and `N` objects under the prefix
(well-formed store, no folder-marker keys), and `0 < M < N`, the bulk removal
lists at most `M` keys, deletes them one at a time (each deletion succeeding),
stops the loop as soon as the local error list is non-empty or the count
reaches `M`, and returns exactly `M`, having removed exactly `M` objects from
the store - `N - M` objects remain under the prefix.  The bound `0 < M` is
forced by the counterexample: at `max_count = 0` the listing reply carries no
contents and the function raises instead of returning a count. -/
theorem c2_items_remove_bounded (s : S3State) (bucket pfx : String) (M : Nat)
    (accessData : AccessMap)
    (hnd : (s.map Prod.fst).Nodup)
    (hslash : ∀ k ∈ keysUnder s bucket pfx, strEndsWith k "/" = false)
    (hM : M < (keysUnder s bucket pfx).length) (hMpos : 0 < M) :
    ((list_objects_v2 s bucket pfx M).getD []).length ≤ M ∧
    (∀ (rm : S3State → String → Except Exc S3State) (ks : List String) (s3 : S3State)
      (result : Nat) (opErrs : List String), opErrs ≠ [] ∨ M ≤ result →
      items_remove_loop rm accessData M ks s3 result opErrs = (result, s3, opErrs)) ∧
    ∃ s2 : S3State,
      items_remove_s (.ok ()) s bucket pfx M accessData = .ok (M, s2, []) ∧
      s2.length + M = s.length ∧
      (keysUnder s2 bucket pfx).length + M = (keysUnder s bucket pfx).length := by
  have hlen : ((keysUnder s bucket pfx).take M).length = M := by
    rw [List.length_take]
    omega
  have hsub : ∀ k ∈ (keysUnder s bucket pfx).take M, k ∈ keysUnder s bucket pfx :=
    fun k hk => (List.take_sublist M _).subset hk
  have hfilter : ((keysUnder s bucket pfx).take M).filter (fun k => !strEndsWith k "/") =
      (keysUnder s bucket pfx).take M := by
    refine List.filter_eq_self.mpr (fun a ha => ?_)
    rw [hslash a (hsub a ha)]
    rfl
  have hnonempty : ((keysUnder s bucket pfx).take M).isEmpty = false := by
    rcases hcase : (keysUnder s bucket pfx).take M with _ | ⟨a, l⟩
    · rw [hcase] at hlen
      simp only [List.length_nil] at hlen
      omega
    · rfl
  have hlist : list_objects_v2 s bucket pfx M = some ((keysUnder s bucket pfx).take M) := by
    simp [list_objects_v2, hnonempty]
  have hitems : items_list (.ok ()) (.ok (list_objects_v2 s bucket pfx M)) accessData =
      (some ((keysUnder s bucket pfx).take M), []) := by
    rw [hlist]
    simp only [items_list, get_client]
    rw [hfilter]
  have hldnd : ((keysUnder s bucket pfx).take M).Nodup :=
    (s3_keysUnder_nodup s bucket pfx hnd).sublist (List.take_sublist M _)
  have hpres : ∀ k ∈ (keysUnder s bucket pfx).take M, (bucket, k) ∈ s.map Prod.fst :=
    fun k hk => (s3_mem_keysUnder s bucket pfx k (hsub k hk)).1
  have hle : 0 + ((keysUnder s bucket pfx).take M).length ≤ M := by
    rw [hlen]
    omega
  obtain ⟨s2, hloop, hslen, hkeys⟩ :=
    items_remove_loop_all_present bucket accessData M ((keysUnder s bucket pfx).take M) s 0
      hldnd hpres hnd hle
  have hkeys2 := hkeys pfx (fun k hk => (s3_mem_keysUnder s bucket pfx k (hsub k hk)).2)
  refine ⟨by rw [hlist]; simp [hlen], ?_, s2, ?_, by omega, by omega⟩
  · intro rm ks s3 result opErrs h
    cases ks with
    | nil => simp [items_remove_loop]
    | cons a l => simp [items_remove_loop, if_pos h]
  simp only [items_remove_s, items_remove, get_client]
  rw [hitems]
  show Except.ok ((items_remove_loop (remove_object_call bucket) accessData M
        ((keysUnder s bucket pfx).take M) s 0 []).1,
      (items_remove_loop (remove_object_call bucket) accessData M
        ((keysUnder s bucket pfx).take M) s 0 []).2.1, ([] : List String)) =
    Except.ok (M, s2, ([] : List String))
  rw [hloop]
  simp only [Nat.zero_add, hlen]

/-- C2 witness: a store with two objects under `"p/"`, bulk removal bounded by
`max_count = 1`. -/
theorem c2_items_remove_bounded_witness :
    ((([(("b", "p/x"), S3Obj.mk [1] "m" []), (("b", "p/y"), S3Obj.mk [2] "m" [])] :
          S3State).map Prod.fst).Nodup ∧
      (∀ k ∈ keysUnder [(("b", "p/x"), S3Obj.mk [1] "m" []),
          (("b", "p/y"), S3Obj.mk [2] "m" [])] "b" "p/", strEndsWith k "/" = false) ∧
      1 < (keysUnder [(("b", "p/x"), S3Obj.mk [1] "m" []),
          (("b", "p/y"), S3Obj.mk [2] "m" [])] "b" "p/").length ∧ 0 < 1) ∧
    (((list_objects_v2 [(("b", "p/x"), S3Obj.mk [1] "m" []),
          (("b", "p/y"), S3Obj.mk [2] "m" [])] "b" "p/" 1).getD []).length ≤ 1 ∧
      (∀ (rm : S3State → String → Except Exc S3State) (ks : List String) (s3 : S3State)
        (result : Nat) (opErrs : List String), opErrs ≠ [] ∨ 1 ≤ result →
        items_remove_loop rm [] 1 ks s3 result opErrs = (result, s3, opErrs)) ∧
      ∃ s2 : S3State,
        items_remove_s (.ok ()) [(("b", "p/x"), S3Obj.mk [1] "m" []),
            (("b", "p/y"), S3Obj.mk [2] "m" [])] "b" "p/" 1 [] = .ok (1, s2, []) ∧
        s2.length + 1 = ([(("b", "p/x"), S3Obj.mk [1] "m" []),
            (("b", "p/y"), S3Obj.mk [2] "m" [])] : S3State).length ∧
        (keysUnder s2 "b" "p/").length + 1 =
          (keysUnder [(("b", "p/x"), S3Obj.mk [1] "m" []),
              (("b", "p/y"), S3Obj.mk [2] "m" [])] "b" "p/").length) :=
  ⟨⟨by decide, by decide, by decide, by decide⟩,
    c2_items_remove_bounded
      [(("b", "p/x"), S3Obj.mk [1] "m" []), (("b", "p/y"), S3Obj.mk [2] "m" [])]
      "b" "p/" 1 [] (by decide) (by decide) (by decide) (by decide)⟩

/-- C2 counterexample: at `max_count = 0` (a maximum count the claim
quantifies over, and `M = 0 < N = 2`) the bulk removal does not return the
number of successful deletions (`0`): the vendor listing reply carries no
`Contents` entry, `items_list` returns `None`, and iterating `None` raises a
`TypeError` that propagates out of `items_remove` (modelled as `.error`),
so no count is returned at all. -/
theorem c2_counterexample :
    0 < (keysUnder [(("b", "p/x"), S3Obj.mk [1] "m" []),
        (("b", "p/y"), S3Obj.mk [2] "m" [])] "b" "p/").length ∧
    items_remove_s (.ok ())
        [(("b", "p/x"), S3Obj.mk [1] "m" []), (("b", "p/y"), S3Obj.mk [2] "m" [])]
        "b" "p/" 0 [] = .error [] :=
  ⟨by decide, rfl⟩
